import Mathlib

/-!
Verification of the tauri-plugin-debug-bridge core against its specification.

The definitions below are a shallow embedding of the Rust source of
`crates/tauri-plugin-debug-bridge` (files `lib.rs`, `webview.rs`,
`backend.rs`): pure Rust/JS functions become Lean functions, the shared
pending-call registry becomes explicit state passing, and the external
effects (the one-way `window.eval` injection primitive and the
sandbox-originated callback / timeout race) become explicit oracle
parameters.  Machine integers never overflow in the modelled code paths, so
Nat is used directly.
-/

namespace DebugBridge

/-! ## String helpers (models of the Rust `str` primitives used) -/

/-- Whitespace recognised by `str::trim` (the characters that occur in the
modelled inputs; Rust trims full Unicode whitespace). -/
def isWsChar (c : Char) : Bool :=
  c == ' ' || c == '\t' || c == '\n' || c == '\r'

/-- Model of Rust `str::trim` on the character list. -/
def trimChars (l : List Char) : List Char :=
  ((l.dropWhile isWsChar).reverse.dropWhile isWsChar).reverse

/-- Model of Rust `str::trim`. -/
def rustTrim (s : String) : String :=
  String.mk (trimChars s.data)

/-- `needle` is a leading run of `hay` (Rust `str::starts_with`). -/
def isStartOf : List Char → List Char → Bool
  | [], _ => true
  | _ :: _, [] => false
  | a :: as, b :: bs => a == b && isStartOf as bs

/-- Model of Rust `str::starts_with`. -/
def strStartsWith (s kw : String) : Bool :=
  isStartOf kw.data s.data

/-- Model of Rust `str::contains(char)`. -/
def strHasChar (s : String) (c : Char) : Bool :=
  s.data.any (· == c)

/-- `needle` occurs somewhere in `hay` (used only to state claims about
"containing" a keyword). -/
def listHasSub (needle : List Char) : List Char → Bool
  | [] => needle.isEmpty
  | c :: rest => isStartOf needle (c :: rest) || listHasSub needle rest

/-- Substring containment on strings. -/
def hasSubstring (hay needle : String) : Bool :=
  listHasSub needle.data hay.data

/-! ## InjectionFramer: `looks_like_expression` and the code body
(webview.rs, `looks_like_expression` and `eval_with_result`) -/

/-- The statement-keyword forms of `looks_like_expression` in webview.rs,
in source order. -/
def stmtKeywords : List String :=
  ["return ", "return;", "const ", "let ", "var ", "if ", "if(",
   "for ", "for(", "while ", "while(", "switch ", "switch(",
   "throw ", "try ", "try\x7b", "class ", "function ", "async function"]

/-- webview.rs `looks_like_expression`: single-line code (after trimming)
that does not start with a statement keyword is treated as an expression. -/
def looks_like_expression (code : String) : Bool :=
  let trimmed := rustTrim code
  if strHasChar trimmed '\n' then false
  else !(stmtKeywords.any (fun kw => strStartsWith trimmed kw))

/-- The `code_body` computed in `eval_with_result` (webview.rs): expressions
get an implicit `return (...)`, everything else passes through unmodified. -/
def code_body (js : String) : String :=
  if looks_like_expression js then "return (" ++ js ++ ")" else js

/-- The full wrapped injection frame built in `eval_with_result`
(webview.rs), with `{code}` and `{id}` substituted. -/
def wrapJs (id js : String) : String :=
  "(async () => \x7b\n            try \x7b\n                const __result = await (async () => \x7b "
  ++ code_body js
  ++ " \x7d)();\n                await window.__TAURI_INTERNALS__.invoke(\n                    \x27plugin:debug-bridge|eval_callback\x27,\n                    \x7b id: \x27"
  ++ id
  ++ "\x27, success: true, value: __result, error: null \x7d\n                );\n            \x7d catch(__e) \x7b\n                await window.__TAURI_INTERNALS__.invoke(\n                    \x27plugin:debug-bridge|eval_callback\x27,\n                    \x7b id: \x27"
  ++ id
  ++ "\x27, success: false, value: null, error: __e.toString() \x7d\n                );\n            \x7d\n        \x7d)()"

/-! ## Data model: EvalResult and the pending-call registry (lib.rs) -/

/-- A `serde_json::Value` (floating point numbers do not occur in the
modelled paths, so numbers are integers). -/
inductive JsonValue where
  | null
  | bool (b : Bool)
  | num (n : Int)
  | str (s : String)
  | arr (elems : List JsonValue)
  | obj (fields : List (String × JsonValue))

/-- lib.rs `EvalResult`. -/
structure EvalResult where
  success : Bool
  value : Option JsonValue
  error : Option String

/-- The registry state: `pending` models the
`HashMap<String, oneshot::Sender<EvalResult>>` (a sender is an abstract
waiter handle), and `delivered` records every completion sent through a
oneshot sender, so that "which waiter received which outcome" is observable. -/
structure RegState where
  pending : List (String × Nat)
  delivered : List (Nat × EvalResult)

/-- `HashMap::insert` (replaces any previous binding of the key). -/
def insertPending (m : List (String × Nat)) (k : String) (v : Nat) :
    List (String × Nat) :=
  (k, v) :: m.filter (fun p => p.1 != k)

/-- `HashMap::remove`. -/
def removeKey (m : List (String × Nat)) (k : String) : List (String × Nat) :=
  m.filter (fun p => p.1 != k)

/-- `HashMap::get`-style lookup. -/
def lookupPending (m : List (String × Nat)) (k : String) : Option Nat :=
  (m.find? (fun p => p.1 == k)).map (fun p => p.2)

/-- lib.rs `eval_callback` Tauri command: remove the pending entry for `id`
and, if one existed, complete its waiter with the reported outcome.  An id
with no pending entry is left exactly as it was. -/
def eval_callback (st : RegState) (id : String) (success : Bool)
    (value : Option JsonValue) (error : Option String) : RegState :=
  match lookupPending st.pending id with
  | some tx =>
      { pending := removeKey st.pending id,
        delivered := (tx, ⟨success, value, error⟩) :: st.delivered }
  | none => st

/-! ## CallBridge: `eval_with_result` (webview.rs) -/

/-- What the outside world does after a successful injection: either the
sandbox invokes the callback with `(id, success, value, error)` before the
deadline, or the 10 s deadline fires first. -/
inductive CallOutcome where
  | callback (success : Bool) (value : Option JsonValue) (error : Option String)
  | timeout

/-- The `Duration::from_secs(10)` deadline of `eval_with_result`
(webview.rs); `/click` and `/fill` run through the same function. -/
def eval_timeout_secs : Nat := 10

/-- The `Duration::from_secs(30)` deadline of the backend `/invoke` handler
(backend.rs). -/
def invoke_timeout_secs : Nat := 30

/-- `/click` uses `eval_with_result`, hence its 10 s deadline. -/
def click_timeout_secs : Nat := eval_timeout_secs

/-- `/fill` uses `eval_with_result`, hence its 10 s deadline. -/
def fill_timeout_secs : Nat := eval_timeout_secs

/-- webview.rs `eval_with_result`: insert a fresh pending entry, inject the
wrapped code, then race the oneshot receiver against the deadline.
`id`/`tx` stand for the freshly generated uuid and oneshot channel,
`evalErr` for the synchronous result of `window.eval` (`some e` = the
injection itself failed with message `e`), and `ev` for the
callback-vs-timeout race.  Returns (final registry state, the code strings
passed to `window.eval`, the HTTP-level result). -/
def eval_with_result (st : RegState) (id : String) (tx : Nat) (js : String)
    (evalErr : Option String) (ev : CallOutcome) :
    RegState × List String × Except (Nat × String) EvalResult :=
  let st1 : RegState := { st with pending := insertPending st.pending id tx }
  let wrapped := wrapJs id js
  match evalErr with
  | some e => (st1, [wrapped], Except.error (500, e))
  | none =>
    match ev with
    | CallOutcome.callback success value error =>
        (eval_callback st1 id success value error, [wrapped],
         Except.ok ⟨success, value, error⟩)
    | CallOutcome.timeout =>
        ({ st1 with pending := removeKey st1.pending id }, [wrapped],
         Except.error (504, "eval timed out after 10s"))

/-! ## Window resolution and the HTTP handlers (webview.rs) -/

/-- webview.rs `EvalRequest`. -/
structure EvalRequest where
  js : String
  window : Option String

/-- webview.rs `ClickRequest`. -/
structure ClickRequest where
  selector : String
  window : Option String

/-- webview.rs `FillRequest`. -/
structure FillRequest where
  selector : String
  text : String
  window : Option String

/-- webview.rs `get_window`: default the label to "main" and fail with 404
naming the label when no such window exists.  `windows` is the set of live
window labels of the app handle. -/
def get_window (windows : List String) (label : Option String) :
    Except (Nat × String) String :=
  let l := label.getD "main"
  if windows.contains l then Except.ok l
  else Except.error (404, "window \x27" ++ l ++ "\x27 not found")

/-- One hex digit, lowercase (used by serde-style escapes and the auth
token). -/
def hexDigit (n : Nat) : Char :=
  "0123456789abcdef".data.getD n '0'

/-- serde_json string escaping for one character. -/
def jsonEscChar (c : Char) : String :=
  if c == '"' then "\\\""
  else if c == '\\' then "\\\\"
  else if c == '\x08' then "\\b"
  else if c == '\t' then "\\t"
  else if c == '\n' then "\\n"
  else if c == '\x0c' then "\\f"
  else if c == '\r' then "\\r"
  else if c.toNat < 32 then
    "\\u00" ++ String.mk [hexDigit (c.toNat / 16), hexDigit (c.toNat % 16)]
  else String.mk [c]

/-- Model of `serde_json::to_string(&s)` for a string `s`. -/
def jsonEncodeString (s : String) : String :=
  "\"" ++ String.mk (s.data.flatMap (fun c => (jsonEscChar c).data)) ++ "\""

/-- The JS built by the `/click` handler (webview.rs) for a selector. -/
def click_js (selector : String) : String :=
  if strStartsWith selector "@" then
    "\n            const el = document.querySelector(\x27[data-debug-ref=\""
    ++ selector.drop 1
    ++ "\"]\x27);\n            if (!el) throw new Error(\x27Ref not found: "
    ++ selector
    ++ "\x27);\n            el.scrollIntoView(\x7bblock: \x27center\x27\x7d);\n            el.click();\n            return true;\n            "
  else
    "\n            const el = document.querySelector("
    ++ jsonEncodeString selector
    ++ ");\n            if (!el) throw new Error(\x27Element not found: "
    ++ selector
    ++ "\x27);\n            el.scrollIntoView(\x7bblock: \x27center\x27\x7d);\n            el.click();\n            return true;\n            "

/-- The JS built by the `/fill` handler (webview.rs) for a selector and
text. -/
def fill_js (selector text : String) : String :=
  if strStartsWith selector "@" then
    "\n            const el = document.querySelector(\x27[data-debug-ref=\""
    ++ selector.drop 1
    ++ "\"]\x27);\n            if (!el) throw new Error(\x27Ref not found: "
    ++ selector
    ++ "\x27);\n            el.scrollIntoView(\x7bblock: \x27center\x27\x7d);\n            el.focus();\n            el.value = "
    ++ jsonEncodeString text
    ++ ";\n            el.dispatchEvent(new Event(\x27input\x27, \x7bbubbles: true\x7d));\n            el.dispatchEvent(new Event(\x27change\x27, \x7bbubbles: true\x7d));\n            return true;\n            "
  else
    "\n            const el = document.querySelector("
    ++ jsonEncodeString selector
    ++ ");\n            if (!el) throw new Error(\x27Element not found: "
    ++ selector
    ++ "\x27);\n            el.scrollIntoView(\x7bblock: \x27center\x27\x7d);\n            el.focus();\n            el.value = "
    ++ jsonEncodeString text
    ++ ";\n            el.dispatchEvent(new Event(\x27input\x27, \x7bbubbles: true\x7d));\n            el.dispatchEvent(new Event(\x27change\x27, \x7bbubbles: true\x7d));\n            return true;\n            "

/-- webview.rs `webview_eval` (POST /eval): resolve the window, then run
`eval_with_result` on the request body. -/
def webview_eval (windows : List String) (st : RegState) (req : EvalRequest)
    (id : String) (tx : Nat) (evalErr : Option String) (ev : CallOutcome) :
    RegState × List String × Except (Nat × String) EvalResult :=
  match get_window windows req.window with
  | Except.error e => (st, [], Except.error e)
  | Except.ok _ => eval_with_result st id tx req.js evalErr ev

/-- webview.rs `click` (POST /click). -/
def click (windows : List String) (st : RegState) (req : ClickRequest)
    (id : String) (tx : Nat) (evalErr : Option String) (ev : CallOutcome) :
    RegState × List String × Except (Nat × String) EvalResult :=
  match get_window windows req.window with
  | Except.error e => (st, [], Except.error e)
  | Except.ok _ => eval_with_result st id tx (click_js req.selector) evalErr ev

/-- webview.rs `fill` (POST /fill). -/
def fill (windows : List String) (st : RegState) (req : FillRequest)
    (id : String) (tx : Nat) (evalErr : Option String) (ev : CallOutcome) :
    RegState × List String × Except (Nat × String) EvalResult :=
  match get_window windows req.window with
  | Except.error e => (st, [], Except.error e)
  | Except.ok _ =>
      eval_with_result st id tx (fill_js req.selector req.text) evalErr ev

/-! ## AuthGate (lib.rs) -/

/-- lib.rs `generate_auth_token`: each random byte rendered as `{b:02x}`,
concatenated.  `bytes` models the `[u8; 16]` drawn from the RNG. -/
def byte_hex (b : Nat) : String :=
  String.mk [hexDigit (b % 256 / 16), hexDigit (b % 16)]

/-- `collect::<String>()` over the formatted bytes. -/
def joinAll : List String → String
  | [] => ""
  | s :: rest => s ++ joinAll rest

/-- lib.rs `generate_auth_token`. -/
def generate_auth_token (bytes : List Nat) : String :=
  joinAll (bytes.map byte_hex)

/-- An HTTP request as the middleware stack sees it: its path, the
`X-Debug-Bridge-Token` header (when present and readable), and the
`AuthToken` request extension (present only once some enclosing
`Extension` layer has inserted it). -/
structure HttpRequest where
  path : String
  headerToken : Option String
  extAuthToken : Option String
  deriving DecidableEq

/-- The middleware either rejects with 401 before any inner layer runs, or
forwards the request (`next.run`) to the layers and handler inside it. -/
inductive AuthDecision where
  | unauthorized
  | forwarded (req : HttpRequest)
  deriving DecidableEq

/-- lib.rs `auth_middleware`: `/health` is exempt; otherwise the expected
token is read from the request extensions
(`map(clone).unwrap_or_default()`: an absent extension yields `""`) and
compared with the provided header (`""` when missing). -/
def auth_middleware (req : HttpRequest) : AuthDecision :=
  if req.path = "/health" then AuthDecision.forwarded req
  else
    let expected := req.extAuthToken.getD ""
    let provided := req.headerToken.getD ""
    if provided ≠ expected then AuthDecision.unauthorized
    else AuthDecision.forwarded req

/-- The `Extension(auth_token)` layer of `build_router`: insert the token
into the request extensions before the inner stack runs. -/
def extension_auth_token (token : String) (req : HttpRequest) : HttpRequest :=
  { req with extAuthToken := some token }

/-- lib.rs `build_router`, restricted to its security layers.  Each axum
`.layer(..)` call wraps the stack built so far, so the layer added LAST is
outermost and processes the request FIRST: the request reaches
`auth_middleware` before the `Extension(AuthToken)` layer (added one line
earlier) has inserted the token.  An inbound request arrives with no
`AuthToken` extension. -/
def build_router_gate (token : String) (path : String)
    (headerToken : Option String) : AuthDecision :=
  match auth_middleware
      { path := path, headerToken := headerToken, extAuthToken := none } with
  | AuthDecision.unauthorized => AuthDecision.unauthorized
  | AuthDecision.forwarded r =>
      AuthDecision.forwarded (extension_auth_token token r)

/-! ## AccessibilitySnapshotWalker (webview.rs `SNAPSHOT_JS`)

The walker is JavaScript injected into the webview; it is embedded here as
the algorithm over a document tree.  Environment-determined facts a DOM
query would return (computed style, attached click handlers, text children,
current value) are fields of the node. -/

/-- The computed style facts `isVisible` reads via `getComputedStyle` /
`offsetParent`. -/
structure Style where
  display : String
  visibility : String
  opacity : String
  offsetParentNull : Bool

/-- A live document node as `SNAPSHOT_JS` observes it.  `dataDebugRef` is
the `data-debug-ref` attribute the walker itself writes. -/
structure DomNode where
  isElement : Bool
  tagName : String
  role : Option String
  tabindex : Option String
  onclickProp : Bool
  onclickAttr : Option String
  ariaLabel : Option String
  nameAttr : Option String
  placeholder : Option String
  valueProp : Option String
  style : Style
  isRoot : Bool
  textChildren : List String
  dataDebugRef : Option String
  children : List DomNode

/-- webview.rs `SnapshotElement` (the node object `walkNode` builds; absent
JS object fields are `none`). -/
structure SnapshotElement where
  tag : String
  ref : Option String
  role : Option String
  text : Option String
  name : Option String
  value : Option String
  interactive : Bool
  children : List SnapshotElement

/-- ASCII lowering of one character (JS `toLowerCase` on tag names). -/
def lowerChar (c : Char) : Char :=
  if 'A' ≤ c && c ≤ 'Z' then Char.ofNat (c.toNat + 32) else c

/-- JS `tagName.toLowerCase()`. -/
def toLowerStr (s : String) : String :=
  String.mk (s.data.map lowerChar)

/-- `INTERACTIVE_TAGS` of SNAPSHOT_JS. -/
def interactiveTags : List String :=
  ["A", "BUTTON", "INPUT", "SELECT", "TEXTAREA", "DETAILS",
   "SUMMARY", "LABEL", "OPTION"]

/-- `INTERACTIVE_ROLES` of SNAPSHOT_JS. -/
def interactiveRoles : List String :=
  ["button", "link", "textbox", "checkbox", "radio", "combobox",
   "listbox", "menuitem", "tab", "switch", "slider", "spinbutton",
   "searchbox", "option", "menuitemcheckbox", "menuitemradio", "treeitem"]

/-- The non-visual tags `walkNode` skips. -/
def skipTags : List String := ["script", "style", "noscript", "template"]

/-- JS truthiness of a `getAttribute` result (`null` and `""` are falsy). -/
def attrTruthy : Option String → Bool
  | none => false
  | some s => s != ""

/-- SNAPSHOT_JS `isInteractive`. -/
def isInteractive (el : DomNode) : Bool :=
  interactiveTags.contains el.tagName
  || (attrTruthy el.role && interactiveRoles.contains (el.role.getD ""))
  || el.tabindex.isSome
  || el.onclickProp
  || attrTruthy el.onclickAttr

/-- SNAPSHOT_JS `isVisible` (`isRoot` marks `document.body` /
`document.documentElement`, which are always visible). -/
def isVisible (el : DomNode) : Bool :=
  el.isRoot
  || (el.style.display != "none" && el.style.visibility != "hidden"
      && el.style.opacity != "0" && !el.style.offsetParentNull)

/-- SNAPSHOT_JS `getTextContent`: trimmed non-empty direct text children,
joined by single spaces; `null` when empty. -/
def getTextContent (el : DomNode) : Option String :=
  let text := el.textChildren.foldl
    (fun acc tc =>
      let t := rustTrim tc
      if t ≠ "" then acc ++ (if acc ≠ "" then " " else "") ++ t else acc) ""
  if text = "" then none else some text

/-- The ref id string for counter value `i`: `'e' + i`. -/
def eRef (i : Nat) : String := "e" ++ toString i

/-- `ariaLabel || name || placeholder` followed by the `if (name)` guard. -/
def firstTruthyAttr (a b c : Option String) : Option String :=
  if attrTruthy a then a
  else if attrTruthy b then b
  else if attrTruthy c then c
  else none

mutual

/-- SNAPSHOT_JS `walkNode`.  `c` is the current `refCounter` value; the
result is (the emitted node or `null`, the node with the `data-debug-ref`
marks the walk wrote, the new counter value). -/
def walkNode (c : Nat) (el : DomNode) :
    Option SnapshotElement × DomNode × Nat :=
  if el.isElement = false then (none, el, c)
  else if isVisible el = false then (none, el, c)
  else
    let tag := toLowerStr el.tagName
    if skipTags.contains tag then (none, el, c)
    else
      let interactive := isInteractive el
      let c1 := if interactive then c + 1 else c
      let refId := if interactive then some (eRef c1) else none
      let el1 := if interactive then { el with dataDebugRef := refId } else el
      let rec1 := walkChildren c1 el.children
      let kids := rec1.1
      let el2 := { el1 with children := rec1.2.1 }
      let c2 := rec1.2.2
      let text := getTextContent el
      if interactive = false ∧ text = none ∧ kids.length ≤ 1
          ∧ attrTruthy el.role = false then
        (kids.head?, el2, c2)
      else
        (some { tag := tag, ref := refId,
                role := if attrTruthy el.role then el.role else none,
                text := text,
                name := firstTruthyAttr el.ariaLabel el.nameAttr el.placeholder,
                value := match el.valueProp with
                         | some v => if v = "" then none else some v
                         | none => none,
                interactive := interactive,
                children := kids }, el2, c2)
termination_by sizeOf el
decreasing_by
  cases el
  simp

/-- The `for (const child of el.children)` loop of `walkNode`: walk each
child in document order, keeping the non-null results. -/
def walkChildren (c : Nat) (els : List DomNode) :
    List SnapshotElement × List DomNode × Nat :=
  match els with
  | [] => ([], [], c)
  | el :: rest =>
      let r1 := walkNode c el
      let r2 := walkChildren r1.2.2 rest
      ((match r1.1 with
        | some n => n :: r2.1
        | none => r2.1), r1.2.1 :: r2.2.1, r2.2.2)
termination_by sizeOf els
decreasing_by
  all_goals simp
  all_goals omega

end

/-- The entry point of SNAPSHOT_JS: walk `document.body` from counter 0 and
unwrap the root (`tree ? (tree.children || [tree]) : []`). -/
def walkDocument (body : DomNode) :
    List SnapshotElement × DomNode × Nat :=
  let r := walkNode 0 body
  (match r.1 with
   | some t => if t.children.isEmpty then [t] else t.children
   | none => [], r.2.1, r.2.2)

mutual

/-- The refs carried by an emitted tree, in depth-first pre-order. -/
def refsOf (n : SnapshotElement) : List String :=
  (match n.ref with | some r => [r] | none => []) ++ refsOfL n.children
termination_by sizeOf n
decreasing_by
  cases n
  simp

/-- `refsOf` over a forest. -/
def refsOfL : List SnapshotElement → List String
  | [] => []
  | n :: rest => refsOf n ++ refsOfL rest
termination_by l => sizeOf l
decreasing_by
  all_goals simp
  all_goals omega

end

/-- `refsOf` of an optional tree. -/
def refsOfOpt : Option SnapshotElement → List String
  | none => []
  | some n => refsOf n

mutual

/-- All nodes of an emitted tree. -/
def nodesOf (n : SnapshotElement) : List SnapshotElement :=
  n :: nodesOfL n.children
termination_by sizeOf n
decreasing_by
  cases n
  simp

/-- `nodesOf` over a forest. -/
def nodesOfL : List SnapshotElement → List SnapshotElement
  | [] => []
  | n :: rest => nodesOf n ++ nodesOfL rest
termination_by l => sizeOf l
decreasing_by
  all_goals simp
  all_goals omega

end

/-- All nodes of an optional tree. -/
def nodesOfOpt : Option SnapshotElement → List SnapshotElement
  | none => []
  | some n => nodesOf n

/-- The expected ref sequence: `eRef a, eRef (a+1), ...` (`k` entries). -/
def eRange (a k : Nat) : List String := (List.range' a k).map eRef

/-- A visible, non-interactive element with no attributes: the building
block of the concrete example trees. -/
def plainStyle : Style := ⟨"block", "visible", "1", false⟩

/-- A plain visible element node with the given tag, direct text children
and element children. -/
def mkPlain (tagName : String) (textChildren : List String)
    (children : List DomNode) : DomNode :=
  ⟨true, tagName, none, none, false, none, none, none, none, none,
   plainStyle, false, textChildren, none, children⟩

/-! ## Registry lemmas -/

theorem lookup_insert_self (m : List (String × Nat)) (k : String) (v : Nat) :
    lookupPending (insertPending m k v) k = some v := by
  simp only [insertPending, lookupPending]
  rw [List.find?_cons_of_pos _ (by simp)]
  rfl

theorem lookup_removeKey_self (m : List (String × Nat)) (k : String) :
    lookupPending (removeKey m k) k = none := by
  induction m with
  | nil => rfl
  | cons p rest ih =>
      simp only [removeKey, lookupPending] at ih ⊢
      by_cases hp : p.1 = k
      · rw [List.filter_cons_of_neg (by simp [hp])]
        exact ih
      · rw [List.filter_cons_of_pos (by simp [hp]),
            List.find?_cons_of_neg _ (by simp [hp])]
        exact ih

theorem lookup_removeKey_ne (m : List (String × Nat)) (k k2 : String)
    (h : k2 ≠ k) : lookupPending (removeKey m k) k2 = lookupPending m k2 := by
  induction m with
  | nil => rfl
  | cons p rest ih =>
      simp only [removeKey, lookupPending] at ih ⊢
      by_cases hp : p.1 = k
      · rw [List.filter_cons_of_neg (by simp [hp]),
            List.find?_cons_of_neg _ (by simp [hp]; exact fun hc => h hc.symm)]
        exact ih
      · rw [List.filter_cons_of_pos (by simp [hp])]
        by_cases hq : p.1 = k2
        · rw [List.find?_cons_of_pos _ (by simp [hq]),
              List.find?_cons_of_pos _ (by simp [hq])]
        · rw [List.find?_cons_of_neg _ (by simp [hq]),
              List.find?_cons_of_neg _ (by simp [hq])]
          exact ih

theorem lookup_insert_ne (m : List (String × Nat)) (k k2 : String) (v : Nat)
    (h : k2 ≠ k) :
    lookupPending (insertPending m k v) k2 = lookupPending m k2 := by
  simp only [insertPending, lookupPending]
  rw [List.find?_cons_of_neg _ (by simp; exact fun hc => h hc.symm)]
  exact lookup_removeKey_ne m k k2 h

theorem eval_callback_absent (st : RegState) (id : String)
    (h : lookupPending st.pending id = none) (s : Bool) (v : Option JsonValue)
    (e : Option String) : eval_callback st id s v e = st := by
  simp [eval_callback, h]

/-! ## Claim theorems -/

/-- Claim C1: every in-flight CallId is removed from the pending-call
registry exactly once, by callback resolution or by timeout eviction: after
`eval_with_result` returns (injection itself having succeeded), the id is no
longer pending; a late callback for it is a no-op leaving the state
unchanged; resolving any absent id is a benign no-op; other pending entries
are untouched (no misrouting); and the outcome is delivered exactly to this
call's waiter on resolution, to nobody on timeout. -/
theorem C1_pending_call_lifecycle :
    ∀ (st : RegState) (id : String) (tx : Nat) (js : String) (ev : CallOutcome),
      lookupPending (eval_with_result st id tx js none ev).1.pending id = none
      ∧ (∀ s v e, eval_callback (eval_with_result st id tx js none ev).1 id s v e
            = (eval_with_result st id tx js none ev).1)
      ∧ (∀ st2 : RegState, lookupPending st2.pending id = none →
            ∀ s v e, eval_callback st2 id s v e = st2)
      ∧ (∀ id2, id2 ≠ id →
            lookupPending (eval_with_result st id tx js none ev).1.pending id2
              = lookupPending st.pending id2)
      ∧ (match ev with
         | CallOutcome.callback s v e =>
             (eval_with_result st id tx js none ev).1.delivered
                 = (tx, ⟨s, v, e⟩) :: st.delivered
             ∧ (eval_with_result st id tx js none ev).2.2
                 = Except.ok ⟨s, v, e⟩
         | CallOutcome.timeout =>
             (eval_with_result st id tx js none ev).1.delivered = st.delivered
             ∧ (eval_with_result st id tx js none ev).2.2
                 = Except.error (504, "eval timed out after 10s")) := by
  intro st id tx js ev
  cases ev with
  | callback s v e =>
      have hfound :
          lookupPending (insertPending st.pending id tx) id = some tx :=
        lookup_insert_self st.pending id tx
      refine ⟨?_, ?_, ?_, ?_, ?_, ?_⟩
      · simp [eval_with_result, eval_callback, hfound, lookup_removeKey_self]
      · intro s2 v2 e2
        apply eval_callback_absent
        simp [eval_with_result, eval_callback, hfound, lookup_removeKey_self]
      · intro st2 h2 s2 v2 e2
        exact eval_callback_absent st2 id h2 s2 v2 e2
      · intro id2 h2
        simp only [eval_with_result, eval_callback, hfound]
        rw [lookup_removeKey_ne _ _ _ h2]
        exact lookup_insert_ne st.pending id id2 tx h2
      · simp [eval_with_result, eval_callback, hfound]
      · simp [eval_with_result, eval_callback, hfound]
  | timeout =>
      refine ⟨?_, ?_, ?_, ?_, ?_, ?_⟩
      · simp [eval_with_result, lookup_removeKey_self]
      · intro s2 v2 e2
        apply eval_callback_absent
        simp [eval_with_result, lookup_removeKey_self]
      · intro st2 h2 s2 v2 e2
        exact eval_callback_absent st2 id h2 s2 v2 e2
      · intro id2 h2
        simp only [eval_with_result]
        rw [lookup_removeKey_ne _ _ _ h2]
        exact lookup_insert_ne st.pending id id2 tx h2
      · rfl
      · rfl

/-- Claim C2 (the code diverges from it): when `window.eval` itself fails
synchronously, `eval_with_result` returns the immediate 500 error without
waiting, but the just-registered pending entry is NOT evicted: it is still
in the registry after the call returns. -/
theorem C2_injection_failure_leaves_entry :
    (eval_with_result ⟨[], []⟩ "id0" 7 "1 + 1" (some "window not found")
        CallOutcome.timeout).2.2 = Except.error (500, "window not found")
    ∧ lookupPending
        (eval_with_result ⟨[], []⟩ "id0" 7 "1 + 1" (some "window not found")
          CallOutcome.timeout).1.pending "id0" = some 7 := by
  exact ⟨rfl, rfl⟩

/-- Claim C3 counterexample: the code's heuristic checks whether the trimmed
line STARTS WITH a statement keyword, not whether it CONTAINS one; it also
trims before testing for newlines.  The single input below contains both the
keyword `if ` and a newline, so the claim says it is passed through
unmodified, yet the code wraps it with an implicit return. -/
theorem C3_counterexample :
    hasSubstring "x; if (y) \x7b\x7d\n" "if " = true
    ∧ strHasChar "x; if (y) \x7b\x7d\n" '\n' = true
    ∧ code_body "x; if (y) \x7b\x7d\n" = "return (" ++ "x; if (y) \x7b\x7d\n" ++ ")" := by
  exact ⟨rfl, rfl, rfl⟩

/-- Claim C3 as amended: the framer wraps the code with an implicit return
if and only if, AFTER TRIMMING surrounding whitespace, the code contains no
newline and does not START WITH any of the statement-keyword forms of
`stmtKeywords`; otherwise the code is passed through unmodified.  In
particular `1 + 1` is wrapped and `if (true) { return 1 }` passes through. -/
theorem C3_expression_heuristic :
    (∀ js : String,
        strHasChar (rustTrim js) '\n' = false →
        (∀ kw ∈ stmtKeywords, strStartsWith (rustTrim js) kw = false) →
        code_body js = "return (" ++ js ++ ")")
    ∧ (∀ js : String, strHasChar (rustTrim js) '\n' = true → code_body js = js)
    ∧ (∀ js : String,
        (∃ kw ∈ stmtKeywords, strStartsWith (rustTrim js) kw = true) →
        code_body js = js)
    ∧ code_body "1 + 1" = "return (1 + 1)"
    ∧ code_body "if (true) \x7b return 1 \x7d" = "if (true) \x7b return 1 \x7d" := by
  refine ⟨?_, ?_, ?_, rfl, rfl⟩
  · intro js h1 h2
    have hany : stmtKeywords.any (fun kw => strStartsWith (rustTrim js) kw) = false := by
      rw [List.any_eq_false]
      intro kw hkw
      simp [h2 kw hkw]
    simp [code_body, looks_like_expression, h1, hany]
  · intro js h1
    simp [code_body, looks_like_expression, h1]
  · intro js h1
    obtain ⟨kw, hkw, hs⟩ := h1
    have hany : stmtKeywords.any (fun kw => strStartsWith (rustTrim js) kw) = true :=
      List.any_eq_true.mpr ⟨kw, hkw, hs⟩
    simp [code_body, looks_like_expression, hany]

/-- Claim C4 counterexample: the claim asserts the default timeout for
generic code execution (/eval) is longer than the default for UI actions
(/click, /fill); in the code /click and /fill run through the same
`eval_with_result` as /eval, so all three share one fixed 10-second
deadline, and the UI-action timeout is not shorter. -/
theorem C4_counterexample :
    click_timeout_secs = eval_timeout_secs
    ∧ fill_timeout_secs = eval_timeout_secs
    ∧ ¬ click_timeout_secs < eval_timeout_secs := by
  exact ⟨rfl, rfl, by decide⟩

/-- Claim C4 as amended: no per-call timeout parameter exists; /eval,
/click and /fill share the fixed 10-second deadline of `eval_with_result`,
and the backend /invoke handler uses a fixed 30-second deadline; every
timed-out call fails with the same fixed timeout error regardless of the
request. -/
theorem C4_fixed_timeouts :
    eval_timeout_secs = 10 ∧ click_timeout_secs = 10 ∧ fill_timeout_secs = 10
    ∧ invoke_timeout_secs = 30
    ∧ (∀ (st : RegState) (id : String) (tx : Nat) (js : String),
        (eval_with_result st id tx js none CallOutcome.timeout).2.2
          = Except.error (504, "eval timed out after 10s")) := by
  exact ⟨rfl, rfl, rfl, rfl, fun st id tx js => rfl⟩

/-- lib.rs `generate_auth_token` renders each of the 16 random bytes as two
hex characters. -/
theorem generate_auth_token_length (bytes : List Nat) :
    (generate_auth_token bytes).length = 2 * bytes.length := by
  induction bytes with
  | nil => rfl
  | cons b rest ih =>
      show (byte_hex b ++ joinAll (rest.map byte_hex)).length
          = 2 * (rest.length + 1)
      rw [String.length_append]
      have h2 : (byte_hex b).length = 2 := rfl
      have ih2 : (joinAll (rest.map byte_hex)).length = 2 * rest.length := ih
      rw [h2, ih2]
      omega

/-- Claim C8 (the code diverges from it): in `build_router` the
`auth_middleware` layer is added after — hence wraps, hence runs before —
the `Extension(AuthToken)` layer, so the middleware reads an absent
extension and compares the provided header against `""`.  A tokenless
request to a non-health endpoint is therefore forwarded to the handler, not
rejected (the gate is bypassed), while a request presenting the real
32-hex-character (hence nonempty) token is rejected.  The health endpoint
is forwarded as the claim says. -/
theorem C8_auth_gate_bypassed :
    build_router_gate (generate_auth_token (List.replicate 16 0))
        "/windows" none ≠ AuthDecision.unauthorized
    ∧ build_router_gate (generate_auth_token (List.replicate 16 0))
        "/windows" (some (generate_auth_token (List.replicate 16 0)))
        = AuthDecision.unauthorized
    ∧ build_router_gate (generate_auth_token (List.replicate 16 0))
        "/health" none ≠ AuthDecision.unauthorized := by
  refine ⟨by decide, by decide, by decide⟩

/-- Claim C10: /eval, /click and /fill resolve an omitted `window` field to
the label "main", and when no window with the resolved label exists they
fail with a 404 naming that label, before any code is injected (no
`window.eval` call is made) and before any pending-call registry entry is
created (the registry is returned unchanged). -/
theorem C10_window_resolution :
    (∀ windows : List String,
        get_window windows none = get_window windows (some "main"))
    ∧ (∀ (windows : List String) (st : RegState) (js sel txt : String)
         (w : Option String) (id : String) (tx : Nat) (evalErr : Option String)
         (ev : CallOutcome),
        windows.contains (w.getD "main") = false →
        webview_eval windows st ⟨js, w⟩ id tx evalErr ev
            = (st, [], Except.error
                (404, "window \x27" ++ w.getD "main" ++ "\x27 not found"))
          ∧ click windows st ⟨sel, w⟩ id tx evalErr ev
            = (st, [], Except.error
                (404, "window \x27" ++ w.getD "main" ++ "\x27 not found"))
          ∧ fill windows st ⟨sel, txt, w⟩ id tx evalErr ev
            = (st, [], Except.error
                (404, "window \x27" ++ w.getD "main" ++ "\x27 not found"))) := by
  constructor
  · intro windows; rfl
  · intro windows st js sel txt w id tx evalErr ev h
    have h2 : w.getD "main" ∉ windows := by simpa using h
    refine ⟨?_, ?_, ?_⟩ <;>
      simp [webview_eval, click, fill, get_window, h2]

/-! ## Snapshot-walker step lemmas and structural lemmas -/

theorem walkNode_not_element (c : Nat) (el : DomNode) (h : el.isElement = false) :
    walkNode c el = (none, el, c) := by
  simp only [walkNode]
  rw [if_pos h]

theorem walkNode_invisible (c : Nat) (el : DomNode) (h1 : el.isElement = true)
    (h : isVisible el = false) : walkNode c el = (none, el, c) := by
  simp only [walkNode]
  rw [if_neg (by simp [h1]), if_pos h]

theorem walkNode_skip (c : Nat) (el : DomNode) (h1 : el.isElement = true)
    (h2 : isVisible el = true) (h : skipTags.contains (toLowerStr el.tagName) = true) :
    walkNode c el = (none, el, c) := by
  simp only [walkNode]
  rw [if_neg (by simp [h1]), if_neg (by simp [h2]), if_pos h]

theorem walkChildren_nil (c : Nat) : walkChildren c [] = ([], [], c) := by
  simp only [walkChildren]

theorem walkChildren_cons (c : Nat) (el : DomNode) (rest : List DomNode) :
    walkChildren c (el :: rest) =
      ((match (walkNode c el).1 with
        | some n => n :: (walkChildren (walkNode c el).2.2 rest).1
        | none => (walkChildren (walkNode c el).2.2 rest).1),
       (walkNode c el).2.1 :: (walkChildren (walkNode c el).2.2 rest).2.1,
       (walkChildren (walkNode c el).2.2 rest).2.2) := by
  simp only [walkChildren]

theorem walkNode_collapse (c : Nat) (el : DomNode) (h1 : el.isElement = true)
    (h2 : isVisible el = true)
    (h3 : skipTags.contains (toLowerStr el.tagName) = false)
    (h4 : isInteractive el = false) (h5 : getTextContent el = none)
    (h6 : attrTruthy el.role = false)
    (h7 : (walkChildren c el.children).1.length ≤ 1) :
    walkNode c el =
      ((walkChildren c el.children).1.head?,
       { el with children := (walkChildren c el.children).2.1 },
       (walkChildren c el.children).2.2) := by
  simp only [walkNode]
  rw [if_neg (by simp [h1]), if_neg (by simp [h2]), if_neg (by rw [h3]; simp), h4]
  simp [h5, h6, h7]

theorem walkNode_interactive (c : Nat) (el : DomNode) (h1 : el.isElement = true)
    (h2 : isVisible el = true)
    (h3 : skipTags.contains (toLowerStr el.tagName) = false)
    (h4 : isInteractive el = true) :
    walkNode c el =
      (some { tag := toLowerStr el.tagName, ref := some (eRef (c+1)),
              role := if attrTruthy el.role then el.role else none,
              text := getTextContent el,
              name := firstTruthyAttr el.ariaLabel el.nameAttr el.placeholder,
              value := match el.valueProp with
                       | some v => if v = "" then none else some v
                       | none => none,
              interactive := true,
              children := (walkChildren (c+1) el.children).1 },
       { el with dataDebugRef := some (eRef (c+1)),
                 children := (walkChildren (c+1) el.children).2.1 },
       (walkChildren (c+1) el.children).2.2) := by
  simp only [walkNode]
  rw [if_neg (by simp [h1]), if_neg (by simp [h2]), if_neg (by rw [h3]; simp), h4]
  simp

theorem walkNode_emit_plain (c : Nat) (el : DomNode) (h1 : el.isElement = true)
    (h2 : isVisible el = true)
    (h3 : skipTags.contains (toLowerStr el.tagName) = false)
    (h4 : isInteractive el = false)
    (hcol : ¬(getTextContent el = none ∧ (walkChildren c el.children).1.length ≤ 1
              ∧ attrTruthy el.role = false)) :
    walkNode c el =
      (some { tag := toLowerStr el.tagName, ref := none,
              role := if attrTruthy el.role then el.role else none,
              text := getTextContent el,
              name := firstTruthyAttr el.ariaLabel el.nameAttr el.placeholder,
              value := match el.valueProp with
                       | some v => if v = "" then none else some v
                       | none => none,
              interactive := false,
              children := (walkChildren c el.children).1 },
       { el with children := (walkChildren c el.children).2.1 },
       (walkChildren c el.children).2.2) := by
  simp only [walkNode]
  rw [if_neg (by simp [h1]), if_neg (by simp [h2]), if_neg (by rw [h3]; simp), h4]
  simp [hcol]


theorem span_walk :
    walkNode 0 (mkPlain "SPAN" ["text"] [])
      = (some { tag := "span", ref := none, role := none, text := some "text",
                name := none, value := none, interactive := false, children := [] },
         mkPlain "SPAN" ["text"] [], 0) := by
  rw [walkNode_emit_plain 0 (mkPlain "SPAN" ["text"] []) rfl rfl rfl rfl
        (fun hc => absurd hc.1 (by decide)),
      show (mkPlain "SPAN" ["text"] []).children = [] from rfl,
      walkChildren_nil]
  rfl

theorem span_kids :
    walkChildren 0 [mkPlain "SPAN" ["text"] []]
      = ([{ tag := "span", ref := none, role := none, text := some "text",
            name := none, value := none, interactive := false, children := [] }],
         [mkPlain "SPAN" ["text"] []], 0) := by
  rw [walkChildren_cons, span_walk, walkChildren_nil]

theorem inner_walk :
    walkNode 0 (mkPlain "DIV" [] [mkPlain "SPAN" ["text"] []])
      = (some { tag := "span", ref := none, role := none, text := some "text",
                name := none, value := none, interactive := false, children := [] },
         mkPlain "DIV" [] [mkPlain "SPAN" ["text"] []], 0) := by
  rw [walkNode_collapse 0 (mkPlain "DIV" [] [mkPlain "SPAN" ["text"] []])
        rfl rfl rfl rfl rfl rfl
        (by rw [show (mkPlain "DIV" [] [mkPlain "SPAN" ["text"] []]).children
                  = [mkPlain "SPAN" ["text"] []] from rfl, span_kids]; simp),
      show (mkPlain "DIV" [] [mkPlain "SPAN" ["text"] []]).children
        = [mkPlain "SPAN" ["text"] []] from rfl,
      span_kids]
  rfl

theorem inner_kids :
    walkChildren 0 [mkPlain "DIV" [] [mkPlain "SPAN" ["text"] []]]
      = ([{ tag := "span", ref := none, role := none, text := some "text",
            name := none, value := none, interactive := false, children := [] }],
         [mkPlain "DIV" [] [mkPlain "SPAN" ["text"] []]], 0) := by
  rw [walkChildren_cons, inner_walk, walkChildren_nil]

theorem outer_walk :
    (walkNode 0 (mkPlain "DIV" [] [mkPlain "DIV" [] [mkPlain "SPAN" ["text"] []]])).1
      = some { tag := "span", ref := none, role := none, text := some "text",
               name := none, value := none, interactive := false, children := [] } := by
  rw [walkNode_collapse 0 (mkPlain "DIV" [] [mkPlain "DIV" [] [mkPlain "SPAN" ["text"] []]])
        rfl rfl rfl rfl rfl rfl
        (by rw [show (mkPlain "DIV" [] [mkPlain "DIV" [] [mkPlain "SPAN" ["text"] []]]).children
                  = [mkPlain "DIV" [] [mkPlain "SPAN" ["text"] []]] from rfl, inner_kids]; simp),
      show (mkPlain "DIV" [] [mkPlain "DIV" [] [mkPlain "SPAN" ["text"] []]]).children
        = [mkPlain "DIV" [] [mkPlain "SPAN" ["text"] []]] from rfl,
      inner_kids]
  rfl


theorem walk_idem_list (els : List DomNode)
    (H : ∀ x ∈ els, ∀ c : Nat, walkNode c ((walkNode c x).2.1) = walkNode c x) :
    ∀ c : Nat, walkChildren c ((walkChildren c els).2.1) = walkChildren c els := by
  induction els with
  | nil =>
      intro c
      rw [walkChildren_nil]
      exact walkChildren_nil c
  | cons x rest ih =>
      intro c
      have hx : walkNode c ((walkNode c x).2.1) = walkNode c x :=
        H x (List.mem_cons_self x rest) c
      have ih2 : ∀ c2 : Nat,
          walkChildren c2 ((walkChildren c2 rest).2.1) = walkChildren c2 rest :=
        ih (fun y hy => H y (List.mem_cons_of_mem x hy))
      rw [walkChildren_cons]
      dsimp only
      rw [walkChildren_cons, hx, ih2 ((walkNode c x).2.2)]

theorem walk_idem_node : ∀ (N : Nat) (el : DomNode), sizeOf el ≤ N →
    ∀ c : Nat, walkNode c ((walkNode c el).2.1) = walkNode c el := by
  intro N
  induction N with
  | zero =>
      intro el h
      exfalso
      cases el
      simp only [DomNode.mk.sizeOf_spec] at h
      omega
  | succ N ih =>
      intro el hN c
      have Hch : ∀ x ∈ el.children, ∀ c2 : Nat,
          walkNode c2 ((walkNode c2 x).2.1) = walkNode c2 x := by
        intro x hx
        apply ih
        have h1 : sizeOf x < sizeOf el.children := List.sizeOf_lt_of_mem hx
        have h2 : sizeOf el.children < sizeOf el := by
          cases el
          dsimp only
          simp only [DomNode.mk.sizeOf_spec]
          omega
        omega
      by_cases hE : el.isElement = false
      · rw [walkNode_not_element c el hE]
        exact walkNode_not_element c el hE
      · have hE' : el.isElement = true := by revert hE; cases el.isElement <;> simp
        by_cases hV : isVisible el = false
        · rw [walkNode_invisible c el hE' hV]
          exact walkNode_invisible c el hE' hV
        · have hV' : isVisible el = true := by revert hV; cases isVisible el <;> simp
          by_cases hS : skipTags.contains (toLowerStr el.tagName) = true
          · rw [walkNode_skip c el hE' hV' hS]
            exact walkNode_skip c el hE' hV' hS
          · have hS' : skipTags.contains (toLowerStr el.tagName) = false := by
              revert hS; cases skipTags.contains (toLowerStr el.tagName) <;> simp
            have hlist := walk_idem_list el.children Hch
            by_cases hI : isInteractive el = true
            · rw [walkNode_interactive c el hE' hV' hS' hI]
              dsimp only
              rw [walkNode_interactive c
                    { el with dataDebugRef := some (eRef (c+1)),
                              children := (walkChildren (c+1) el.children).2.1 }
                    hE' hV' hS' hI]
              dsimp only
              rw [hlist (c+1)]
              rfl
            · have hI' : isInteractive el = false := by
                revert hI; cases isInteractive el <;> simp
              by_cases hC : getTextContent el = none
                  ∧ (walkChildren c el.children).1.length ≤ 1
                  ∧ attrTruthy el.role = false
              · have hlen : (walkChildren c
                    (({ el with children := (walkChildren c el.children).2.1 }
                      : DomNode)).children).1.length ≤ 1 := by
                  dsimp only
                  rw [hlist c]
                  exact hC.2.1
                rw [walkNode_collapse c el hE' hV' hS' hI' hC.1 hC.2.2 hC.2.1]
                dsimp only
                rw [walkNode_collapse c
                      { el with children := (walkChildren c el.children).2.1 }
                      hE' hV' hS' hI' hC.1 hC.2.2 hlen]
                dsimp only
                rw [hlist c]
              · have hcol2 : ¬(getTextContent
                      (({ el with children := (walkChildren c el.children).2.1 }
                        : DomNode)) = none
                    ∧ (walkChildren c
                        (({ el with children := (walkChildren c el.children).2.1 }
                          : DomNode)).children).1.length ≤ 1
                    ∧ attrTruthy
                        (({ el with children := (walkChildren c el.children).2.1 }
                          : DomNode)).role = false) := by
                  dsimp only
                  rw [hlist c]
                  exact hC
                rw [walkNode_emit_plain c el hE' hV' hS' hI' hC]
                dsimp only
                rw [walkNode_emit_plain c
                      { el with children := (walkChildren c el.children).2.1 }
                      hE' hV' hS' hI' hcol2]
                dsimp only
                rw [hlist c]
                rfl


theorem walk_refs_list (els : List DomNode)
    (H : ∀ x ∈ els, ∀ c : Nat,
        c ≤ (walkNode c x).2.2
        ∧ refsOfOpt (walkNode c x).1 = eRange (c+1) ((walkNode c x).2.2 - c)
        ∧ (∀ m ∈ nodesOfOpt (walkNode c x).1, m.ref.isSome = m.interactive)) :
    ∀ c : Nat,
      c ≤ (walkChildren c els).2.2
      ∧ refsOfL (walkChildren c els).1 = eRange (c+1) ((walkChildren c els).2.2 - c)
      ∧ (∀ m ∈ nodesOfL (walkChildren c els).1, m.ref.isSome = m.interactive) := by
  induction els with
  | nil =>
      intro c
      rw [walkChildren_nil]
      refine ⟨le_refl c, ?_, ?_⟩
      · simp [refsOfL, eRange, Nat.sub_self]
      · intro m hm
        simp [nodesOfL] at hm
  | cons x rest ih =>
      intro c
      obtain ⟨hc1, hrefs1, hnodes1⟩ := H x (List.mem_cons_self x rest) c
      have ih2 := ih (fun y hy => H y (List.mem_cons_of_mem x hy))
      rw [walkChildren_cons]
      dsimp only
      cases hr : (walkNode c x).1 with
      | none =>
          rw [hr] at hrefs1
          simp only [refsOfOpt] at hrefs1
          have hlen0 := congrArg List.length hrefs1
          simp only [List.length_nil, eRange, List.length_map,
            List.length_range'] at hlen0
          have hc1eq : (walkNode c x).2.2 = c := by omega
          obtain ⟨hc2, hrefs2, hnodes2⟩ := ih2 c
          rw [hc1eq]
          exact ⟨hc2, hrefs2, hnodes2⟩
      | some n =>
          rw [hr] at hrefs1 hnodes1
          simp only [refsOfOpt] at hrefs1
          simp only [nodesOfOpt] at hnodes1
          obtain ⟨hc2, hrefs2, hnodes2⟩ := ih2 ((walkNode c x).2.2)
          refine ⟨le_trans hc1 hc2, ?_, ?_⟩
          · simp only [refsOfL]
            rw [hrefs1, hrefs2]
            have e1 : (walkNode c x).2.2 + 1 = (c + 1) + ((walkNode c x).2.2 - c) := by
              omega
            rw [e1]
            simp only [eRange]
            rw [← List.map_append, List.range'_append_1]
            have e2 : (walkChildren (walkNode c x).2.2 rest).2.2 - (walkNode c x).2.2
                  + ((walkNode c x).2.2 - c)
                = (walkChildren (walkNode c x).2.2 rest).2.2 - c := by omega
            rw [e2]
          · intro m hm
            simp only [nodesOfL] at hm
            rcases List.mem_append.mp hm with h1 | h2
            · exact hnodes1 m h1
            · exact hnodes2 m h2

theorem walk_refs_node : ∀ (N : Nat) (el : DomNode), sizeOf el ≤ N → ∀ c : Nat,
    c ≤ (walkNode c el).2.2
    ∧ refsOfOpt (walkNode c el).1 = eRange (c+1) ((walkNode c el).2.2 - c)
    ∧ (∀ m ∈ nodesOfOpt (walkNode c el).1, m.ref.isSome = m.interactive) := by
  intro N
  induction N with
  | zero =>
      intro el h
      exfalso
      cases el
      simp only [DomNode.mk.sizeOf_spec] at h
      omega
  | succ N ih =>
      intro el hN c
      have Hch : ∀ x ∈ el.children, ∀ c2 : Nat,
          c2 ≤ (walkNode c2 x).2.2
          ∧ refsOfOpt (walkNode c2 x).1 = eRange (c2+1) ((walkNode c2 x).2.2 - c2)
          ∧ (∀ m ∈ nodesOfOpt (walkNode c2 x).1, m.ref.isSome = m.interactive) := by
        intro x hx
        apply ih
        have h1 : sizeOf x < sizeOf el.children := List.sizeOf_lt_of_mem hx
        have h2 : sizeOf el.children < sizeOf el := by
          cases el
          dsimp only
          simp only [DomNode.mk.sizeOf_spec]
          omega
        omega
      by_cases hE : el.isElement = false
      · rw [walkNode_not_element c el hE]
        dsimp only
        refine ⟨le_refl c, ?_, ?_⟩
        · simp [refsOfOpt, eRange, Nat.sub_self]
        · intro m hm
          simp [nodesOfOpt] at hm
      · have hE' : el.isElement = true := by revert hE; cases el.isElement <;> simp
        by_cases hV : isVisible el = false
        · rw [walkNode_invisible c el hE' hV]
          dsimp only
          refine ⟨le_refl c, ?_, ?_⟩
          · simp [refsOfOpt, eRange, Nat.sub_self]
          · intro m hm
            simp [nodesOfOpt] at hm
        · have hV' : isVisible el = true := by revert hV; cases isVisible el <;> simp
          by_cases hS : skipTags.contains (toLowerStr el.tagName) = true
          · rw [walkNode_skip c el hE' hV' hS]
            dsimp only
            refine ⟨le_refl c, ?_, ?_⟩
            · simp [refsOfOpt, eRange, Nat.sub_self]
            · intro m hm
              simp [nodesOfOpt] at hm
          · have hS' : skipTags.contains (toLowerStr el.tagName) = false := by
              revert hS; cases skipTags.contains (toLowerStr el.tagName) <;> simp
            by_cases hI : isInteractive el = true
            · rw [walkNode_interactive c el hE' hV' hS' hI]
              dsimp only
              obtain ⟨lc, lrefs, lnodes⟩ := walk_refs_list el.children Hch (c+1)
              refine ⟨by omega, ?_, ?_⟩
              · simp only [refsOfOpt, refsOf]
                rw [lrefs]
                have e1 : (walkChildren (c+1) el.children).2.2 - c
                    = ((walkChildren (c+1) el.children).2.2 - (c+1)) + 1 := by omega
                rw [e1]
                simp only [eRange]
                rw [List.range'_succ]
                simp only [List.map_cons, List.singleton_append]
              · intro m hm
                simp only [nodesOfOpt, nodesOf] at hm
                rcases List.mem_cons.mp hm with h1 | h2
                · subst h1
                  rfl
                · exact lnodes m h2
            · have hI' : isInteractive el = false := by
                revert hI; cases isInteractive el <;> simp
              obtain ⟨lc, lrefs, lnodes⟩ := walk_refs_list el.children Hch c
              by_cases hC : getTextContent el = none
                  ∧ (walkChildren c el.children).1.length ≤ 1
                  ∧ attrTruthy el.role = false
              · rw [walkNode_collapse c el hE' hV' hS' hI' hC.1 hC.2.2 hC.2.1]
                dsimp only
                cases hk : (walkChildren c el.children).1 with
                | nil =>
                    rw [hk] at lrefs
                    simp only [refsOfL] at lrefs
                    refine ⟨lc, ?_, ?_⟩
                    · simp only [List.head?_nil, refsOfOpt]
                      exact lrefs
                    · intro m hm
                      simp [List.head?_nil, nodesOfOpt] at hm
                | cons n tail =>
                    have hlen := hC.2.1
                    rw [hk] at hlen
                    have htail : tail = [] := by
                      simp only [List.length_cons] at hlen
                      have h0 : tail.length = 0 := by omega
                      exact List.length_eq_zero.mp h0
                    subst htail
                    rw [hk] at lrefs lnodes
                    refine ⟨lc, ?_, ?_⟩
                    · simp only [List.head?_cons, refsOfOpt]
                      simp only [refsOfL, List.append_nil] at lrefs
                      exact lrefs
                    · intro m hm
                      simp only [List.head?_cons, nodesOfOpt] at hm
                      apply lnodes
                      simp only [nodesOfL, List.append_nil]
                      exact hm
              · rw [walkNode_emit_plain c el hE' hV' hS' hI' hC]
                dsimp only
                refine ⟨lc, ?_, ?_⟩
                · simp only [refsOfOpt, refsOf]
                  simp only [List.nil_append]
                  exact lrefs
                · intro m hm
                  simp only [nodesOfOpt, nodesOf] at hm
                  rcases List.mem_cons.mp hm with h1 | h2
                  · subst h1
                    rfl
                  · exact lnodes m h2


/-- Claim C5: in the snapshot walker, a visited element that is
non-interactive, has no direct text content, has at most one surviving child
after recursion, and carries no (truthy) role attribute is elided from the
output and replaced by that single surviving child, or removed entirely when
it has none (the result is exactly `head?` of the surviving children); in
particular the wrapper `div(div(span "text"))` walks to the single node
`span` containing the text `text`. -/
theorem C5_collapse_rule :
    (∀ (c : Nat) (el : DomNode),
        el.isElement = true → isVisible el = true →
        skipTags.contains (toLowerStr el.tagName) = false →
        isInteractive el = false → getTextContent el = none →
        attrTruthy el.role = false →
        (walkChildren c el.children).1.length ≤ 1 →
        (walkNode c el).1 = (walkChildren c el.children).1.head?)
    ∧ (walkNode 0 (mkPlain "DIV" [] [mkPlain "DIV" [] [mkPlain "SPAN" ["text"] []]])).1
        = some { tag := "span", ref := none, role := none, text := some "text",
                 name := none, value := none, interactive := false, children := [] } := by
  constructor
  · intro c el h1 h2 h3 h4 h5 h6 h7
    rw [walkNode_collapse c el h1 h2 h3 h4 h5 h6 h7]
  · exact outer_walk

/-- Claim C6: in every tree the snapshot walker produces, the refs read in
depth-first pre-order are exactly `e1, e2, ...` up to the final counter
value (sequential in traversal order), and every emitted node carries a ref
exactly when it was classified interactive — so no emitted non-interactive
node has a ref. -/
theorem C6_ref_iff_interactive :
    ∀ body : DomNode,
      refsOfOpt (walkNode 0 body).1 = eRange 1 ((walkNode 0 body).2.2)
      ∧ (∀ m ∈ nodesOfOpt (walkNode 0 body).1, m.ref.isSome = m.interactive) := by
  intro body
  obtain ⟨h1, h2, h3⟩ := walk_refs_node (sizeOf body) body (le_refl _) 0
  refine ⟨?_, h3⟩
  simpa using h2

/-- Claim C7: the snapshot walk is deterministic.  The walk is a pure
function of the document tree, and its only side effect on the document is
writing the `data-debug-ref` marks; running the walk a second time on the
tree left behind by the first walk (the same unchanged document) yields the
identical output — same ref assignments in the same order, same tree shape,
and the same marked document. -/
theorem C7_walk_deterministic :
    ∀ body : DomNode,
      walkNode 0 ((walkNode 0 body).2.1) = walkNode 0 body
      ∧ walkDocument ((walkDocument body).2.1) = walkDocument body := by
  intro body
  have h := walk_idem_node (sizeOf body) body (le_refl (sizeOf body)) 0
  refine ⟨h, ?_⟩
  simp only [walkDocument]
  rw [h]

end DebugBridge
